import Mathlib

/-!
Shallow embedding of the tool-orchestration core of `backend/ai_generator.py`
(class `AIGenerator`: `generate_response`, `_execute_tool_round` and
`_extract_text_from_response`).

External collaborators are modelled as behaviours indexed by a call counter,
so every theorem quantifies over all possible behaviours:
the Anthropic client (`self.client.messages.create`) is an `LLMBehavior`
returning either a response or a raised transport error, and the tool manager
(`tool_manager.execute_tool`) is an `ExecBehavior` returning either a result
string or a raised error.  `Except.error e` stands for a raised Python
exception whose `str` is `e`.

The run is instrumented: it returns the ordered list of LLM requests issued,
the ordered list of tool executions performed, the returned string, and the
final state of the `messages` list.  Diagnostic `print` calls in the source
are pure side channels and are not modelled.
-/

/-- Role tag of a chat message, mirroring the `"role"` field of the message
dicts built in `generate_response` and `_execute_tool_round`. -/
inductive Role where
  | user
  | assistant
deriving Repr, DecidableEq

/-- Keyword arguments passed to a tool (the `content_block.input` mapping,
splatted as `**content_block.input`). -/
abbrev ToolInput := List (String × String)

/-- One tool execution performed by the tool manager: tool name and keyword
arguments, in the order `_execute_tool_round` performs them. -/
abbrev ToolCall := String × ToolInput

/-- Content block of an API response (`response.content`): a text block
(exposes `.text`), a tool-use block (`.type == "tool_use"`, carrying `.id`,
`.name` and `.input`), or any other block kind exposing neither. -/
inductive ContentBlock where
  | text (t : String)
  | toolUse (id : String) (name : String) (input : ToolInput)
  | other (tag : String)
deriving Repr, DecidableEq

/-- The `tool_result` dict built in `_execute_tool_round`:
`{"type": "tool_result", "tool_use_id": ..., "content": ...}`. -/
structure ToolResultBlock where
  tool_use_id : String
  content : String
deriving Repr, DecidableEq

/-- The `"content"` field of a message dict: the plain query string, the raw
`response.content` block list of an assistant turn, or the list of tool
result dicts appended after a tool round. -/
inductive MessageContent where
  | str (s : String)
  | blocks (bs : List ContentBlock)
  | toolResults (rs : List ToolResultBlock)
deriving Repr, DecidableEq

/-- One entry of the `messages` list. -/
structure Message where
  role : Role
  content : MessageContent
deriving Repr, DecidableEq

/-- One tool descriptor of the catalog passed in the `tools` parameter; the
orchestrator forwards it unmodified, so its fields are opaque here. -/
structure Tool where
  name : String
  description : String
deriving Repr, DecidableEq

/-- Response object returned by `self.client.messages.create`. -/
structure Response where
  stop_reason : String
  content : List ContentBlock
deriving Repr, DecidableEq

/-- One request issued to the LLM client, i.e. the `api_params` of a
`messages.create` call (minus the constant `base_params`).  `tools = some c`
means the call carried the catalog `c` together with the
`tool_choice = auto` directive (the source adds both or neither, lines
102-105); `tools = none` means neither was present. -/
structure Request where
  messages : List Message
  system : String
  tools : Option (List Tool)
deriving Repr, DecidableEq

/-- Behaviour of the LLM client: the value of the n-th `messages.create`
call of the run, given the request.  `Except.error e` models the call
raising an exception with description `e`. -/
abbrev LLMBehavior := Nat → Request → Except String Response

/-- Behaviour of the tool manager: the value of the n-th `execute_tool`
call of the run, given tool name and keyword arguments.  `Except.error e`
models the call raising an exception with description `e`. -/
abbrev ExecBehavior := Nat → String → ToolInput → Except String String

/-- The static `SYSTEM_PROMPT` class attribute (its exact text is forwarded
verbatim and never inspected by the orchestrator). -/
def SYSTEM_PROMPT : String :=
  " You are an AI assistant specialized in course materials and educational content with access to tools for course information.\n\nAvailable Tools:\n1. **search_course_content**: Search within course materials for specific content\n   - Use for questions about specific topics, concepts, or detailed educational materials\n   - Can filter by course name and lesson number\n\n2. **get_course_outline**: Get complete course structure with all lessons\n   - Use for questions about course overview, structure, or lesson list\n   - Returns course title, link, and all lesson titles with numbers\n   - Perfect for \"show outline\", \"list lessons\", \"what\x27s in the course\" queries\n\nTool Usage Guidelines:\n- **Sequential tool usage**: You may use up to 2 tools sequentially to answer complex queries\n- Choose tools strategically based on the query:\n  - Outline/structure questions → use get_course_outline\n  - Content/topic questions → use search_course_content\n  - Complex comparisons → use multiple tools to gather comprehensive information\n- After receiving tool results, you can make another tool call if needed to:\n  - Search for related content based on initial findings\n  - Get additional context or details\n  - Compare information across different courses or lessons\n- If tool yields no results, state this clearly and consider alternative searches\n\nResponse Protocol:\n- **General knowledge questions**: Answer using existing knowledge without tools\n- **Course outline questions**: Use get_course_outline tool, then format the response clearly\n- **Course content questions**: Use search_course_content tool, then synthesize results\n- **Complex queries**: Use multiple tools sequentially to build comprehensive answers\n- **No meta-commentary**: Provide direct answers only\n\nFor outline queries, format the response as:\n- Course title and link\n- Numbered list of all lessons with their titles\n\nAll responses must be:\n1. **Brief, Concise and focused** - Get to the point quickly\n2. **Educational** - Maintain instructional value\n3. **Clear** - Use accessible language\n4. **Well-formatted** - Use clear structure for outlines and lists\nProvide only the direct answer to what was asked.\n"

/-- Python truthiness of the `tools` parameter (`Optional[List]`): `None`
and the empty list are falsy, a non-empty list is truthy (line 103:
`if tools and tool_manager`). -/
def toolsTruthy : Option (List Tool) → Bool
  | none => false
  | some ts => !ts.isEmpty

/-- Python truthiness of `conversation_history` (`Optional[str]`): `None`
and the empty string are falsy (line 82: `if conversation_history`). -/
def historyTruthy : Option String → Bool
  | none => false
  | some s => !(s == "")

/-- The `system_content` built once per run (lines 82-86): the static prompt,
extended with the previous conversation when the history is truthy. -/
def build_system_content (conversation_history : Option String) : String :=
  if historyTruthy conversation_history then
    SYSTEM_PROMPT ++ "\n\nPrevious conversation:\n" ++ conversation_history.getD ""
  else
    SYSTEM_PROMPT

/-- The `hasattr(content_block, "text")` probe of
`_extract_text_from_response`: only text blocks expose a `.text`. -/
def blockText : ContentBlock → Option String
  | ContentBlock.text t => some t
  | _ => none

/-- The scanning loop of `_extract_text_from_response` (lines 206-210):
return the text of the first block exposing one, else the sentinel. -/
def firstText : List ContentBlock → String
  | [] => "No text content in response"
  | b :: bs =>
    match blockText b with
    | some t => t
    | none => firstText bs

/-- The `_extract_text_from_response` helper (lines 194-212).  The argument
is the attempt to read and iterate `response.content`: `Except.error e`
models that access raising an exception (caught by the `try`/`except` at
lines 204-212), `Except.ok blocks` a well-formed block list. -/
def extract_text_from_response : Except String (List ContentBlock) → String
  | Except.error e => "Error extracting response text: " ++ e
  | Except.ok blocks => firstText blocks

/-- The `content_block.type == "tool_use"` test of `_execute_tool_round`
(line 164). -/
def isToolUse : ContentBlock → Bool
  | ContentBlock.toolUse _ _ _ => true
  | _ => false

/-- The correlation id of a tool-use block, `none` for every other block. -/
def toolUseId : ContentBlock → Option String
  | ContentBlock.toolUse i _ _ => some i
  | _ => none

/-- The `try`/`except` around `tool_manager.execute_tool` (lines 165-185):
a successful execution contributes its result string, a raising one
contributes the formatted error string instead. -/
def wrapResult : Except String String → String
  | Except.ok s => s
  | Except.error e => "Error executing tool: " ++ e

/-- The `for content_block in response.content` loop of `_execute_tool_round`
(lines 160-185): execute every tool-use block in listed order, collecting the
tool result blocks and the log of executions; `ec` counts the `execute_tool`
calls already performed in this run. -/
def executeToolCalls (execB : ExecBehavior) :
    Nat → List ContentBlock → List ToolResultBlock × List ToolCall
  | _, [] => ([], [])
  | ec, ContentBlock.toolUse i n inp :: bs =>
    let rest := executeToolCalls execB (ec + 1) bs
    (⟨i, wrapResult (execB ec n inp)⟩ :: rest.1, (n, inp) :: rest.2)
  | ec, ContentBlock.text _ :: bs => executeToolCalls execB ec bs
  | ec, ContentBlock.other _ :: bs => executeToolCalls execB ec bs

/-- Result of `_execute_tool_round`: the updated `messages` list (the source
mutates it in place), the tool executions performed, the updated executor
call counter, and the boolean return value. -/
structure RoundResult where
  messages : List Message
  toolLog : List ToolCall
  execCount : Nat
  executed : Bool
deriving Repr, DecidableEq

/-- The `_execute_tool_round` method (lines 145-192): append the assistant
response content, execute every tool-use block, and append a user message
with the collected results when at least one was produced (returning `True`),
else leave the messages with the dangling assistant turn (returning
`False`). -/
def execute_tool_round (execB : ExecBehavior) (ec : Nat) (resp : Response)
    (messages : List Message) : RoundResult :=
  let msgs1 := messages ++ [⟨Role.assistant, MessageContent.blocks resp.content⟩]
  let rl := executeToolCalls execB ec resp.content
  if rl.1.isEmpty then
    ⟨msgs1, rl.2, ec + rl.1.length, false⟩
  else
    ⟨msgs1 ++ [⟨Role.user, MessageContent.toolResults rl.1⟩], rl.2, ec + rl.1.length, true⟩

/-- The `api_params` of an in-loop `messages.create` call (lines 96-105):
the catalog and the auto tool-choice are attached exactly when both `tools`
and `tool_manager` are truthy. -/
def loopRequest (sys : String) (tools : Option (List Tool)) (hasTM : Bool)
    (ms : List Message) : Request :=
  ⟨ms, sys, if toolsTruthy tools && hasTM then tools else none⟩

/-- Instrumented outcome of a run (or of a tail of a run): every LLM request
issued from this point on, in order; every tool execution performed, in
order; the string returned; and the final state of `messages`. -/
structure Trace where
  requests : List Request
  toolCalls : List ToolCall
  result : String
  finalMessages : List Message
deriving Repr, DecidableEq

/-- The `while rounds_completed < max_rounds` loop of `generate_response`
(lines 94-130) followed by the final tool-less call (lines 132-143).  The
fuel is `max_rounds - rounds_completed`, the exact loop variable of the
source; `lc` and `ec` count the LLM and executor calls already made. -/
def runLoop (llm : LLMBehavior) (execB : ExecBehavior) (sys : String)
    (tools : Option (List Tool)) (hasTM : Bool) :
    Nat → List Message → Nat → Nat → Trace
  | 0, ms, lc, _ =>
    match llm lc ⟨ms, sys, none⟩ with
    | Except.ok resp =>
      ⟨[⟨ms, sys, none⟩], [], extract_text_from_response (Except.ok resp.content), ms⟩
    | Except.error e =>
      ⟨[⟨ms, sys, none⟩], [], "Error generating final response: " ++ e, ms⟩
  | fuel + 1, ms, lc, ec =>
    match llm lc (loopRequest sys tools hasTM ms) with
    | Except.error e =>
      ⟨[loopRequest sys tools hasTM ms], [], "Error generating response: " ++ e, ms⟩
    | Except.ok resp =>
      if resp.stop_reason == "tool_use" && hasTM then
        let rr := execute_tool_round execB ec resp ms
        if rr.executed then
          let t := runLoop llm execB sys tools hasTM fuel rr.messages (lc + 1) rr.execCount
          ⟨loopRequest sys tools hasTM ms :: t.requests, rr.toolLog ++ t.toolCalls,
            t.result, t.finalMessages⟩
        else
          ⟨[loopRequest sys tools hasTM ms], rr.toolLog,
            extract_text_from_response (Except.ok resp.content), rr.messages⟩
      else
        ⟨[loopRequest sys tools hasTM ms], [],
          extract_text_from_response (Except.ok resp.content), ms⟩

/-- The `generate_response` method (lines 59-143): build the system content,
seed the messages with the user query, and run the bounded loop.  `hasTM`
is the presence (truthiness) of the `tool_manager` argument; `execB` is only
ever consulted when `hasTM` is true.  Totality of this definition (structural
recursion of `runLoop` on the remaining round budget) is the termination
argument of the source loop. -/
def generate_response (llm : LLMBehavior) (execB : ExecBehavior) (query : String)
    (conversation_history : Option String) (tools : Option (List Tool))
    (hasTM : Bool) (max_rounds : Nat) : Trace :=
  runLoop llm execB (build_system_content conversation_history) tools hasTM
    max_rounds [⟨Role.user, MessageContent.str query⟩] 0 0

/-! Helper lemmas about text extraction. -/

lemma firstText_append_text (t : String) (post : List ContentBlock) :
    ∀ pre : List ContentBlock,
      pre.all (fun b => (blockText b).isNone) = true →
      firstText (pre ++ ContentBlock.text t :: post) = t := by
  intro pre
  induction pre with
  | nil => intro _; rfl
  | cons b bs ih =>
    intro hpre
    simp only [List.all_cons, Bool.and_eq_true] at hpre
    cases b with
    | text s => simp [blockText] at hpre
    | toolUse i n inp => simpa [firstText, blockText] using ih hpre.2
    | other g => simpa [firstText, blockText] using ih hpre.2

lemma firstText_no_text :
    ∀ blocks : List ContentBlock,
      blocks.all (fun b => (blockText b).isNone) = true →
      firstText blocks = "No text content in response" := by
  intro blocks
  induction blocks with
  | nil => intro _; rfl
  | cons b bs ih =>
    intro hall
    simp only [List.all_cons, Bool.and_eq_true] at hall
    cases b with
    | text s => simp [blockText] at hall
    | toolUse i n inp => simpa [firstText, blockText] using ih hall.2
    | other g => simpa [firstText, blockText] using ih hall.2

/-- C8: text extraction returns the text of the first content block exposing
text independently of the blocks after it, returns the sentinel
`"No text content in response"` when no block exposes text, and converts an
exception raised while reading the content into a formatted error string
instead of propagating it. -/
theorem run_extract_text_spec (e t : String) (pre post blocks : List ContentBlock)
    (hpre : pre.all (fun b => (blockText b).isNone) = true)
    (hall : blocks.all (fun b => (blockText b).isNone) = true) :
    extract_text_from_response (Except.error e) = "Error extracting response text: " ++ e ∧
    extract_text_from_response (Except.ok (pre ++ ContentBlock.text t :: post)) = t ∧
    extract_text_from_response (Except.ok blocks) = "No text content in response" :=
  ⟨rfl, firstText_append_text t post pre hpre, firstText_no_text blocks hall⟩

/-- C8 witness: the spec theorem evaluated at a tool-use block followed by two
text blocks, at a textless response, and at a raising access. -/
theorem run_extract_text_spec_witness :
    ([ContentBlock.toolUse "i" "n" []].all (fun b => (blockText b).isNone) = true) ∧
    ([ContentBlock.other "z"].all (fun b => (blockText b).isNone) = true) ∧
    (extract_text_from_response (Except.error "boom") =
        "Error extracting response text: " ++ "boom" ∧
      extract_text_from_response
          (Except.ok ([ContentBlock.toolUse "i" "n" []] ++
            ContentBlock.text "hello" :: [ContentBlock.text "x"])) = "hello" ∧
      extract_text_from_response (Except.ok [ContentBlock.other "z"]) =
        "No text content in response") :=
  ⟨by decide, by decide,
    run_extract_text_spec "boom" "hello" [ContentBlock.toolUse "i" "n" []]
      [ContentBlock.text "x"] [ContentBlock.other "z"] (by decide) (by decide)⟩

/-- C5: once the loop exits with the budget exhausted (fuel 0, which is also
the whole run when `max_rounds = 0`), exactly one further LLM call is issued,
carrying the accumulated messages and system prompt but no tool catalog; a
transport error there yields `"Error generating final response: "` plus the
description, a response yields its extracted text. -/
theorem run_final_call_without_tools (llm : LLMBehavior) (execB : ExecBehavior)
    (sys : String) (tools : Option (List Tool)) (hasTM : Bool) (ms : List Message)
    (lc ec : Nat) (q : String) (h : Option String) :
    (runLoop llm execB sys tools hasTM 0 ms lc ec).requests = [⟨ms, sys, none⟩] ∧
    (runLoop llm execB sys tools hasTM 0 ms lc ec).toolCalls = [] ∧
    (runLoop llm execB sys tools hasTM 0 ms lc ec).result =
      (match llm lc (⟨ms, sys, none⟩ : Request) with
        | Except.ok resp => extract_text_from_response (Except.ok resp.content)
        | Except.error e => "Error generating final response: " ++ e) ∧
    (generate_response llm execB q h tools hasTM 0).requests =
      [⟨[⟨Role.user, MessageContent.str q⟩], build_system_content h, none⟩] := by
  refine ⟨?_, ?_, ?_, ?_⟩
  · cases hres : llm lc (⟨ms, sys, none⟩ : Request) <;> simp [runLoop, hres]
  · cases hres : llm lc (⟨ms, sys, none⟩ : Request) <;> simp [runLoop, hres]
  · cases hres : llm lc (⟨ms, sys, none⟩ : Request) <;> simp [runLoop, hres]
  · show (runLoop llm execB (build_system_content h) tools hasTM 0
        [⟨Role.user, MessageContent.str q⟩] 0 0).requests = _
    cases hres : llm 0 (⟨[⟨Role.user, MessageContent.str q⟩],
        build_system_content h, none⟩ : Request) <;> simp [runLoop, hres]

/-- C3: a transport error on an in-loop LLM call is terminal: the run issues
no further LLM calls, performs no tool executions for that call, and returns
`"Error generating response: "` followed by the error description. -/
theorem run_transport_error_terminal (llm : LLMBehavior) (execB : ExecBehavior)
    (sys : String) (tools : Option (List Tool)) (hasTM : Bool) (fuel : Nat)
    (ms : List Message) (lc ec : Nat) (e : String)
    (herr : llm lc (loopRequest sys tools hasTM ms) = Except.error e) :
    runLoop llm execB sys tools hasTM (fuel + 1) ms lc ec =
      ⟨[loopRequest sys tools hasTM ms], [], "Error generating response: " ++ e, ms⟩ := by
  simp [runLoop, herr]

/-- C3 witness: an LLM behaviour that raises on its first call, under a run
with one round of budget. -/
theorem run_transport_error_terminal_witness :
    ((fun _ _ => Except.error "boom" : LLMBehavior) 0
        (loopRequest SYSTEM_PROMPT none true [⟨Role.user, MessageContent.str "q"⟩]) =
      Except.error "boom") ∧
    runLoop (fun _ _ => Except.error "boom") (fun _ _ _ => Except.ok "r")
        SYSTEM_PROMPT none true 1 [⟨Role.user, MessageContent.str "q"⟩] 0 0 =
      ⟨[loopRequest SYSTEM_PROMPT none true [⟨Role.user, MessageContent.str "q"⟩]],
        [], "Error generating response: " ++ "boom",
        [⟨Role.user, MessageContent.str "q"⟩]⟩ :=
  ⟨rfl, run_transport_error_terminal (fun _ _ => Except.error "boom")
    (fun _ _ _ => Except.ok "r") SYSTEM_PROMPT none true 0
    [⟨Role.user, MessageContent.str "q"⟩] 0 0 "boom" rfl⟩

/-! Helper lemmas about the per-round tool execution loop. -/

lemma executeToolCalls_fst_length (execB : ExecBehavior) :
    ∀ (blocks : List ContentBlock) (ec : Nat),
      (executeToolCalls execB ec blocks).1.length = (blocks.filter isToolUse).length := by
  intro blocks
  induction blocks with
  | nil => intro ec; rfl
  | cons b bs ih =>
    intro ec
    cases b with
    | text t => simpa [executeToolCalls, isToolUse] using ih ec
    | toolUse i n inp => simp [executeToolCalls, isToolUse, ih (ec + 1)]
    | other g => simpa [executeToolCalls, isToolUse] using ih ec

lemma executeToolCalls_ids (execB : ExecBehavior) :
    ∀ (blocks : List ContentBlock) (ec : Nat),
      (executeToolCalls execB ec blocks).1.map ToolResultBlock.tool_use_id =
        blocks.filterMap toolUseId := by
  intro blocks
  induction blocks with
  | nil => intro ec; rfl
  | cons b bs ih =>
    intro ec
    cases b with
    | text t => simpa [executeToolCalls, toolUseId] using ih ec
    | toolUse i n inp => simp [executeToolCalls, toolUseId, ih (ec + 1)]
    | other g => simpa [executeToolCalls, toolUseId] using ih ec

lemma executeToolCalls_getElem (execB : ExecBehavior) :
    ∀ (blocks : List ContentBlock) (ec j : Nat) (i n : String) (inp : ToolInput),
      (blocks.filter isToolUse)[j]? = some (ContentBlock.toolUse i n inp) →
      (executeToolCalls execB ec blocks).1[j]? =
        some ⟨i, wrapResult (execB (ec + j) n inp)⟩ := by
  intro blocks
  induction blocks with
  | nil => intro ec j i n inp hj; simp at hj
  | cons b bs ih =>
    intro ec j i n inp hj
    cases b with
    | text t =>
      exact ih ec j i n inp (by simpa [isToolUse] using hj)
    | other g =>
      exact ih ec j i n inp (by simpa [isToolUse] using hj)
    | toolUse i' n' inp' =>
      rw [List.filter_cons_of_pos (by simp [isToolUse])] at hj
      cases j with
      | zero =>
        simp only [List.getElem?_cons_zero, Option.some.injEq,
          ContentBlock.toolUse.injEq] at hj
        obtain ⟨hi, hn, hinp⟩ := hj
        subst hi; subst hn; subst hinp
        simp [executeToolCalls]
      | succ j' =>
        have hstep := ih (ec + 1) j' i n inp (by simpa using hj)
        rw [show ec + 1 + j' = ec + (j' + 1) by omega] at hstep
        simpa [executeToolCalls] using hstep

lemma executeToolCalls_eq_nil (execB : ExecBehavior) :
    ∀ (blocks : List ContentBlock) (ec : Nat),
      blocks.filter isToolUse = [] →
      executeToolCalls execB ec blocks = ([], []) := by
  intro blocks
  induction blocks with
  | nil => intro ec _; rfl
  | cons b bs ih =>
    intro ec hnil
    cases b with
    | text t =>
      rw [List.filter_cons_of_neg (by simp [isToolUse])] at hnil
      simpa [executeToolCalls] using ih ec hnil
    | other g =>
      rw [List.filter_cons_of_neg (by simp [isToolUse])] at hnil
      simpa [executeToolCalls] using ih ec hnil
    | toolUse i n inp =>
      rw [List.filter_cons_of_pos (by simp [isToolUse])] at hnil
      exact absurd hnil (by simp)

/-- C6: when the executor raises on the j-th tool-use block of a round, that
block still gets a result block whose content is `"Error executing tool: "`
plus the error description, every tool-use block of the round is executed
(one result per tool-use block), and the round reports success, so the run
continues instead of aborting. -/
theorem run_tool_error_contained (execB : ExecBehavior) (ec : Nat)
    (blocks : List ContentBlock) (ms : List Message) (j : Nat) (i n : String)
    (inp : ToolInput) (e : String)
    (hj : (blocks.filter isToolUse)[j]? = some (ContentBlock.toolUse i n inp))
    (he : execB (ec + j) n inp = Except.error e) :
    (executeToolCalls execB ec blocks).1[j]? =
      some ⟨i, "Error executing tool: " ++ e⟩ ∧
    (executeToolCalls execB ec blocks).1.length = (blocks.filter isToolUse).length ∧
    (execute_tool_round execB ec ⟨"tool_use", blocks⟩ ms).executed = true := by
  refine ⟨?_, executeToolCalls_fst_length execB blocks ec, ?_⟩
  · have hget := executeToolCalls_getElem execB blocks ec j i n inp hj
    rw [he] at hget
    simpa [wrapResult] using hget
  · have hlt : j < (blocks.filter isToolUse).length := by
      by_contra hcon
      push_neg at hcon
      rw [List.getElem?_eq_none hcon] at hj
      exact Option.noConfusion hj
    have hne : (executeToolCalls execB ec blocks).1 ≠ [] := by
      intro hnil
      have := executeToolCalls_fst_length execB blocks ec
      rw [hnil] at this
      simp only [List.length_nil] at this
      omega
    simp [execute_tool_round, List.isEmpty_iff, hne]

/-- C6 witness: an executor raising on the second of two tool-use blocks. -/
theorem run_tool_error_contained_witness :
    (([ContentBlock.toolUse "a" "t1" [],
        ContentBlock.toolUse "b" "t2" []].filter isToolUse)[1]? =
      some (ContentBlock.toolUse "b" "t2" [])) ∧
    ((fun _ _ _ => Except.error "boom" : ExecBehavior) (0 + 1) "t2" [] =
      Except.error "boom") ∧
    ((executeToolCalls (fun _ _ _ => Except.error "boom") 0
        [ContentBlock.toolUse "a" "t1" [], ContentBlock.toolUse "b" "t2" []]).1[1]? =
        some ⟨"b", "Error executing tool: " ++ "boom"⟩ ∧
      (executeToolCalls (fun _ _ _ => Except.error "boom") 0
          [ContentBlock.toolUse "a" "t1" [], ContentBlock.toolUse "b" "t2" []]).1.length =
        ([ContentBlock.toolUse "a" "t1" [],
          ContentBlock.toolUse "b" "t2" []].filter isToolUse).length ∧
      (execute_tool_round (fun _ _ _ => Except.error "boom") 0
        ⟨"tool_use", [ContentBlock.toolUse "a" "t1" [],
          ContentBlock.toolUse "b" "t2" []]⟩ []).executed = true) :=
  ⟨rfl, rfl,
    run_tool_error_contained (fun _ _ _ => Except.error "boom") 0
      [ContentBlock.toolUse "a" "t1" [], ContentBlock.toolUse "b" "t2" []]
      [] 1 "b" "t2" [] "boom" rfl rfl⟩

/-- C7: the tool results of a round carry exactly the correlation ids of the
tool-use blocks of the response, one per block and in the same order, and the
user message appended at the end of a successful round contains exactly that
result list, after the assistant turn. -/
theorem run_tool_result_ordering (execB : ExecBehavior) (ec : Nat)
    (resp : Response) (ms : List Message)
    (hne : (executeToolCalls execB ec resp.content).1 ≠ []) :
    (executeToolCalls execB ec resp.content).1.map ToolResultBlock.tool_use_id =
      resp.content.filterMap toolUseId ∧
    (execute_tool_round execB ec resp ms).messages =
      ms ++ [⟨Role.assistant, MessageContent.blocks resp.content⟩,
        ⟨Role.user, MessageContent.toolResults
          (executeToolCalls execB ec resp.content).1⟩] := by
  refine ⟨executeToolCalls_ids execB resp.content ec, ?_⟩
  simp [execute_tool_round, List.isEmpty_iff, hne]

/-- C7 witness: a round with two successfully executed tool-use blocks. -/
theorem run_tool_result_ordering_witness :
    ((executeToolCalls (fun k _ _ => Except.ok (toString k)) 0
        (Response.content ⟨"tool_use",
          [ContentBlock.toolUse "a" "t1" [], ContentBlock.text "aside",
            ContentBlock.toolUse "b" "t2" []]⟩)).1 ≠ []) ∧
    ((executeToolCalls (fun k _ _ => Except.ok (toString k)) 0
        (Response.content ⟨"tool_use",
          [ContentBlock.toolUse "a" "t1" [], ContentBlock.text "aside",
            ContentBlock.toolUse "b" "t2" []]⟩)).1.map ToolResultBlock.tool_use_id =
        (Response.content ⟨"tool_use",
          [ContentBlock.toolUse "a" "t1" [], ContentBlock.text "aside",
            ContentBlock.toolUse "b" "t2" []]⟩).filterMap toolUseId ∧
      (execute_tool_round (fun k _ _ => Except.ok (toString k)) 0
          ⟨"tool_use", [ContentBlock.toolUse "a" "t1" [], ContentBlock.text "aside",
            ContentBlock.toolUse "b" "t2" []]⟩ []).messages =
        [] ++ [⟨Role.assistant, MessageContent.blocks
            (Response.content ⟨"tool_use",
              [ContentBlock.toolUse "a" "t1" [], ContentBlock.text "aside",
                ContentBlock.toolUse "b" "t2" []]⟩)⟩,
          ⟨Role.user, MessageContent.toolResults
            (executeToolCalls (fun k _ _ => Except.ok (toString k)) 0
              (Response.content ⟨"tool_use",
                [ContentBlock.toolUse "a" "t1" [], ContentBlock.text "aside",
                  ContentBlock.toolUse "b" "t2" []]⟩)).1⟩]) :=
  ⟨by decide,
    run_tool_result_ordering (fun k _ _ => Except.ok (toString k)) 0
      ⟨"tool_use", [ContentBlock.toolUse "a" "t1" [], ContentBlock.text "aside",
        ContentBlock.toolUse "b" "t2" []]⟩ [] (by decide)⟩

/-- C9: when the response signals tool-use (and a tool manager is present)
but contains no tool-use block, the run terminates at once: no further LLM
call, no tool execution, and the returned string is the text extracted from
that response (the sentinel when it has none); the round counter is not
advanced, the run simply ends. -/
theorem run_degenerate_tool_use (llm : LLMBehavior) (execB : ExecBehavior)
    (sys : String) (tools : Option (List Tool)) (fuel : Nat) (ms : List Message)
    (lc ec : Nat) (resp : Response)
    (hok : llm lc (loopRequest sys tools true ms) = Except.ok resp)
    (hstop : resp.stop_reason = "tool_use")
    (hblocks : resp.content.filter isToolUse = []) :
    runLoop llm execB sys tools true (fuel + 1) ms lc ec =
      ⟨[loopRequest sys tools true ms], [],
        extract_text_from_response (Except.ok resp.content),
        ms ++ [⟨Role.assistant, MessageContent.blocks resp.content⟩]⟩ := by
  have hx := executeToolCalls_eq_nil execB resp.content ec hblocks
  simp [runLoop, hok, hstop, execute_tool_round, hx]

/-- C9 witness: a response claiming tool-use whose only block is text. -/
theorem run_degenerate_tool_use_witness :
    ((fun _ _ => Except.ok ⟨"tool_use", [ContentBlock.text "hi"]⟩ : LLMBehavior) 0
        (loopRequest SYSTEM_PROMPT none true [⟨Role.user, MessageContent.str "q"⟩]) =
      Except.ok ⟨"tool_use", [ContentBlock.text "hi"]⟩) ∧
    ((Response.stop_reason ⟨"tool_use", [ContentBlock.text "hi"]⟩) = "tool_use") ∧
    ((Response.content ⟨"tool_use", [ContentBlock.text "hi"]⟩).filter isToolUse = []) ∧
    runLoop (fun _ _ => Except.ok ⟨"tool_use", [ContentBlock.text "hi"]⟩)
        (fun _ _ _ => Except.ok "r") SYSTEM_PROMPT none true 1
        [⟨Role.user, MessageContent.str "q"⟩] 0 0 =
      ⟨[loopRequest SYSTEM_PROMPT none true [⟨Role.user, MessageContent.str "q"⟩]],
        [], extract_text_from_response
          (Except.ok (Response.content ⟨"tool_use", [ContentBlock.text "hi"]⟩)),
        [⟨Role.user, MessageContent.str "q"⟩] ++
          [⟨Role.assistant, MessageContent.blocks
            (Response.content ⟨"tool_use", [ContentBlock.text "hi"]⟩)⟩]⟩ :=
  ⟨rfl, rfl, by decide,
    run_degenerate_tool_use (fun _ _ => Except.ok ⟨"tool_use", [ContentBlock.text "hi"]⟩)
      (fun _ _ _ => Except.ok "r") SYSTEM_PROMPT none 0
      [⟨Role.user, MessageContent.str "q"⟩] 0 0
      ⟨"tool_use", [ContentBlock.text "hi"]⟩ rfl rfl (by decide)⟩

/-! Unfolding lemmas: one per control path of the loop body. -/

lemma runLoop_succ_error (llm : LLMBehavior) (execB : ExecBehavior) (sys : String)
    (tools : Option (List Tool)) (hasTM : Bool) (fuel : Nat) (ms : List Message)
    (lc ec : Nat) (e : String)
    (hres : llm lc (loopRequest sys tools hasTM ms) = Except.error e) :
    runLoop llm execB sys tools hasTM (fuel + 1) ms lc ec =
      ⟨[loopRequest sys tools hasTM ms], [], "Error generating response: " ++ e, ms⟩ := by
  simp [runLoop, hres]

lemma runLoop_succ_ok_notool (llm : LLMBehavior) (execB : ExecBehavior) (sys : String)
    (tools : Option (List Tool)) (hasTM : Bool) (fuel : Nat) (ms : List Message)
    (lc ec : Nat) (resp : Response)
    (hres : llm lc (loopRequest sys tools hasTM ms) = Except.ok resp)
    (hc : (resp.stop_reason == "tool_use" && hasTM) = false) :
    runLoop llm execB sys tools hasTM (fuel + 1) ms lc ec =
      ⟨[loopRequest sys tools hasTM ms], [],
        extract_text_from_response (Except.ok resp.content), ms⟩ := by
  simp only [runLoop, hres, hc, Bool.false_eq_true, if_false]

lemma runLoop_succ_ok_noexec (llm : LLMBehavior) (execB : ExecBehavior) (sys : String)
    (tools : Option (List Tool)) (hasTM : Bool) (fuel : Nat) (ms : List Message)
    (lc ec : Nat) (resp : Response)
    (hres : llm lc (loopRequest sys tools hasTM ms) = Except.ok resp)
    (hc : (resp.stop_reason == "tool_use" && hasTM) = true)
    (hexec : (execute_tool_round execB ec resp ms).executed = false) :
    runLoop llm execB sys tools hasTM (fuel + 1) ms lc ec =
      ⟨[loopRequest sys tools hasTM ms], (execute_tool_round execB ec resp ms).toolLog,
        extract_text_from_response (Except.ok resp.content),
        (execute_tool_round execB ec resp ms).messages⟩ := by
  simp only [runLoop, hres, hc, hexec, Bool.false_eq_true, if_false, if_true]

lemma runLoop_succ_ok_exec (llm : LLMBehavior) (execB : ExecBehavior) (sys : String)
    (tools : Option (List Tool)) (hasTM : Bool) (fuel : Nat) (ms : List Message)
    (lc ec : Nat) (resp : Response)
    (hres : llm lc (loopRequest sys tools hasTM ms) = Except.ok resp)
    (hc : (resp.stop_reason == "tool_use" && hasTM) = true)
    (hexec : (execute_tool_round execB ec resp ms).executed = true) :
    runLoop llm execB sys tools hasTM (fuel + 1) ms lc ec =
      ⟨loopRequest sys tools hasTM ms ::
          (runLoop llm execB sys tools hasTM fuel
            (execute_tool_round execB ec resp ms).messages (lc + 1)
            (execute_tool_round execB ec resp ms).execCount).requests,
        (execute_tool_round execB ec resp ms).toolLog ++
          (runLoop llm execB sys tools hasTM fuel
            (execute_tool_round execB ec resp ms).messages (lc + 1)
            (execute_tool_round execB ec resp ms).execCount).toolCalls,
        (runLoop llm execB sys tools hasTM fuel
          (execute_tool_round execB ec resp ms).messages (lc + 1)
          (execute_tool_round execB ec resp ms).execCount).result,
        (runLoop llm execB sys tools hasTM fuel
          (execute_tool_round execB ec resp ms).messages (lc + 1)
          (execute_tool_round execB ec resp ms).execCount).finalMessages⟩ := by
  simp only [runLoop, hres, hc, hexec, if_true]

/-! Helper lemmas about the number and shape of LLM requests. -/

lemma runLoop_call_bounds (llm : LLMBehavior) (execB : ExecBehavior) (sys : String)
    (tools : Option (List Tool)) (hasTM : Bool) :
    ∀ (fuel : Nat) (ms : List Message) (lc ec : Nat),
      (runLoop llm execB sys tools hasTM fuel ms lc ec).requests.length ≤ fuel + 1 ∧
      ((runLoop llm execB sys tools hasTM fuel ms lc ec).requests.filter
        (fun r => r.tools.isSome)).length ≤ fuel := by
  intro fuel
  induction fuel with
  | zero =>
    intro ms lc ec
    cases hres : llm lc (⟨ms, sys, none⟩ : Request) <;>
      simp [runLoop, hres, List.filter]
  | succ f ih =>
    intro ms lc ec
    cases hres : llm lc (loopRequest sys tools hasTM ms) with
    | error e =>
      rw [runLoop_succ_error llm execB sys tools hasTM f ms lc ec e hres]
      constructor
      · simp
      · show (List.filter (fun r => r.tools.isSome)
            [loopRequest sys tools hasTM ms]).length ≤ f + 1
        have hle := List.length_filter_le (fun r => r.tools.isSome)
          [loopRequest sys tools hasTM ms]
        simp only [List.length_cons, List.length_nil] at hle
        omega
    | ok resp =>
      by_cases hc : (resp.stop_reason == "tool_use" && hasTM) = true
      · by_cases hexec : (execute_tool_round execB ec resp ms).executed = true
        · rw [runLoop_succ_ok_exec llm execB sys tools hasTM f ms lc ec resp hres hc hexec]
          obtain ⟨h1r, h2r⟩ := ih (execute_tool_round execB ec resp ms).messages (lc + 1)
            (execute_tool_round execB ec resp ms).execCount
          constructor
          · simp only [List.length_cons]
            omega
          · simp only [List.filter_cons]
            split
            · simp only [List.length_cons]
              omega
            · omega
        · have hexec' : (execute_tool_round execB ec resp ms).executed = false := by
            simpa using hexec
          rw [runLoop_succ_ok_noexec llm execB sys tools hasTM f ms lc ec resp hres hc hexec']
          constructor
          · simp
          · show (List.filter (fun r => r.tools.isSome)
                [loopRequest sys tools hasTM ms]).length ≤ f + 1
            have hle := List.length_filter_le (fun r => r.tools.isSome)
              [loopRequest sys tools hasTM ms]
            simp only [List.length_cons, List.length_nil] at hle
            omega
      · have hc' : (resp.stop_reason == "tool_use" && hasTM) = false := by
          simpa using hc
        rw [runLoop_succ_ok_notool llm execB sys tools hasTM f ms lc ec resp hres hc']
        constructor
        · simp
        · show (List.filter (fun r => r.tools.isSome)
              [loopRequest sys tools hasTM ms]).length ≤ f + 1
          have hle := List.length_filter_le (fun r => r.tools.isSome)
            [loopRequest sys tools hasTM ms]
          simp only [List.length_cons, List.length_nil] at hle
          omega

/-- C1: for every behaviour of the LLM client and of the tool executor, a run
with budget `k` issues at most `k` LLM calls carrying the tool catalog and at
most `k + 1` LLM calls in total; the run always terminates, `generate_response`
being a total function whose recursion is structural on the remaining
budget. -/
theorem run_round_budget (llm : LLMBehavior) (execB : ExecBehavior) (q : String)
    (h : Option String) (tools : Option (List Tool)) (hasTM : Bool) (k : Nat) :
    ((generate_response llm execB q h tools hasTM k).requests.filter
      (fun r => r.tools.isSome)).length ≤ k ∧
    (generate_response llm execB q h tools hasTM k).requests.length ≤ k + 1 := by
  have hb := runLoop_call_bounds llm execB (build_system_content h) tools hasTM k
    [⟨Role.user, MessageContent.str q⟩] 0 0
  exact ⟨hb.2, hb.1⟩

lemma runLoop_no_offer_eq (llm : LLMBehavior) (execB : ExecBehavior) (sys : String)
    (tools1 tools2 : Option (List Tool)) (hasTM : Bool)
    (h1 : (toolsTruthy tools1 && hasTM) = false)
    (h2 : (toolsTruthy tools2 && hasTM) = false) :
    ∀ (fuel : Nat) (ms : List Message) (lc ec : Nat),
      runLoop llm execB sys tools1 hasTM fuel ms lc ec =
        runLoop llm execB sys tools2 hasTM fuel ms lc ec := by
  intro fuel
  induction fuel with
  | zero => intro ms lc ec; simp [runLoop]
  | succ f ih =>
    intro ms lc ec
    have hreq : loopRequest sys tools1 hasTM ms = loopRequest sys tools2 hasTM ms := by
      simp [loopRequest, h1, h2]
    cases hres : llm lc (loopRequest sys tools2 hasTM ms) with
    | error e => simp [runLoop, hreq, hres]
    | ok resp => simp [runLoop, hreq, hres, ih]

lemma runLoop_requests_tools_none (llm : LLMBehavior) (execB : ExecBehavior)
    (sys : String) (tools : Option (List Tool)) (hasTM : Bool)
    (h : (toolsTruthy tools && hasTM) = false) :
    ∀ (fuel : Nat) (ms : List Message) (lc ec : Nat),
      (runLoop llm execB sys tools hasTM fuel ms lc ec).requests.all
        (fun r => r.tools.isNone) = true := by
  intro fuel
  induction fuel with
  | zero =>
    intro ms lc ec
    cases hres : llm lc (⟨ms, sys, none⟩ : Request) <;> simp [runLoop, hres]
  | succ f ih =>
    intro ms lc ec
    have hreq : loopRequest sys tools hasTM ms = ⟨ms, sys, none⟩ := by
      simp [loopRequest, h]
    cases hres : llm lc (loopRequest sys tools hasTM ms) with
    | error e =>
      rw [runLoop_succ_error llm execB sys tools hasTM f ms lc ec e hres]
      simp [hreq]
    | ok resp =>
      by_cases hc : (resp.stop_reason == "tool_use" && hasTM) = true
      · by_cases hexec : (execute_tool_round execB ec resp ms).executed = true
        · rw [runLoop_succ_ok_exec llm execB sys tools hasTM f ms lc ec resp hres hc hexec]
          simp [hreq, ih]
        · have hexec' : (execute_tool_round execB ec resp ms).executed = false := by
            simpa using hexec
          rw [runLoop_succ_ok_noexec llm execB sys tools hasTM f ms lc ec resp hres hc hexec']
          simp [hreq]
      · have hc' : (resp.stop_reason == "tool_use" && hasTM) = false := by
          simpa using hc
        rw [runLoop_succ_ok_notool llm execB sys tools hasTM f ms lc ec resp hres hc']
        simp [hreq]

lemma runLoop_no_tm_toolCalls (llm : LLMBehavior) (execB : ExecBehavior)
    (sys : String) (tools : Option (List Tool)) :
    ∀ (fuel : Nat) (ms : List Message) (lc ec : Nat),
      (runLoop llm execB sys tools false fuel ms lc ec).toolCalls = [] := by
  intro fuel
  cases fuel with
  | zero =>
    intro ms lc ec
    cases hres : llm lc (⟨ms, sys, none⟩ : Request) <;> simp [runLoop, hres]
  | succ f =>
    intro ms lc ec
    cases hres : llm lc (loopRequest sys tools false ms) with
    | error e => simp [runLoop, hres]
    | ok resp => simp [runLoop, hres]

/-- C10: a run given the empty tool catalog behaves exactly as one given no
catalog at all, even with an executor present: the whole instrumented trace
(so in particular every LLM request) is identical, and no request carries a
tool catalog or tool-choice directive. -/
theorem run_empty_tool_catalog (llm : LLMBehavior) (execB : ExecBehavior)
    (q : String) (h : Option String) (k : Nat) :
    generate_response llm execB q h (some []) true k =
      generate_response llm execB q h none true k ∧
    (generate_response llm execB q h (some []) true k).requests.all
      (fun r => r.tools.isNone) = true := by
  constructor
  · exact runLoop_no_offer_eq llm execB (build_system_content h) (some []) none true
      (by simp [toolsTruthy]) (by simp [toolsTruthy]) k
      [⟨Role.user, MessageContent.str q⟩] 0 0
  · exact runLoop_requests_tools_none llm execB (build_system_content h) (some []) true
      (by simp [toolsTruthy]) k [⟨Role.user, MessageContent.str q⟩] 0 0

/-- C2 counterexample: with an executor present but `tools = None`, an LLM
behaviour that reports `stop_reason = "tool_use"` with a tool-use block makes
the run execute a tool (the check at line 115 tests only `tool_manager`, not
`tools`), refuting the claim that such a run never executes a tool. -/
theorem run_one_sided_tools_cex :
    (generate_response
        (fun _ _ => Except.ok ⟨"tool_use", [ContentBlock.toolUse "a" "t" []]⟩)
        (fun _ _ _ => Except.ok "r") "q" none none true 1).toolCalls ≠ [] := by
  decide

/-- C2 (amended): when `tools` is provided but the tool manager is absent,
the run behaves exactly as if neither were present (identical trace) and
never executes a tool; when the tool manager is present but `tools` is null,
no LLM request carries the tool catalog or tool-choice directive — but (unlike
the original claim) tools can still be executed if the LLM reports tool-use,
as the counterexample shows. -/
theorem run_one_sided_tools (llm : LLMBehavior) (execB : ExecBehavior) (q : String)
    (h : Option String) (ts : List Tool) (k : Nat) :
    generate_response llm execB q h (some ts) false k =
      generate_response llm execB q h none false k ∧
    (generate_response llm execB q h (some ts) false k).toolCalls = [] ∧
    (generate_response llm execB q h none true k).requests.all
      (fun r => r.tools.isNone) = true := by
  refine ⟨?_, ?_, ?_⟩
  · exact runLoop_no_offer_eq llm execB (build_system_content h) (some ts) none false
      (by simp) (by simp) k [⟨Role.user, MessageContent.str q⟩] 0 0
  · exact runLoop_no_tm_toolCalls llm execB (build_system_content h) (some ts) k
      [⟨Role.user, MessageContent.str q⟩] 0 0
  · exact runLoop_requests_tools_none llm execB (build_system_content h) none true
      (by simp [toolsTruthy]) k [⟨Role.user, MessageContent.str q⟩] 0 0

/-! Conversation-state invariant: definitions and lemmas for the message
alternation and append-only properties. -/

/-- Strict role alternation of a message list (the contract the Anthropic
API imposes on `messages`). -/
def alternatingRoles : List Role → Bool
  | [] => true
  | [_] => true
  | a :: b :: rest => !(a == b) && alternatingRoles (b :: rest)

/-- The list ends with a user message whose content is a non-empty list of
tool result blocks. -/
def endsWithToolResults (ms : List Message) : Bool :=
  match ms.getLast? with
  | some ⟨Role.user, MessageContent.toolResults rs⟩ => !rs.isEmpty
  | _ => false

/-- Well-formedness of the conversation state at the moment an LLM call is
issued: it starts with the user message holding the query verbatim, roles
strictly alternate, and it is either still the initial single message
(zero completed rounds) or ends with a user message holding non-empty tool
results (after one or more completed rounds). -/
def goodCallState (q : String) (ms : List Message) : Bool :=
  (ms.head? == some ⟨Role.user, MessageContent.str q⟩) &&
  alternatingRoles (ms.map Message.role) &&
  ((ms == [⟨Role.user, MessageContent.str q⟩]) || endsWithToolResults ms)

/-- Boolean list-prefix test. -/
def isPrefixB {α : Type} [DecidableEq α] : List α → List α → Bool
  | [], _ => true
  | _ :: _, [] => false
  | a :: as, b :: bs => decide (a = b) && isPrefixB as bs

/-- Every element of the sequence is a prefix of the next: the observable
form of "messages are only ever appended, never reordered or truncated". -/
def prefixChain : List (List Message) → Bool
  | [] => true
  | [_] => true
  | a :: b :: rest => isPrefixB a b && prefixChain (b :: rest)

lemma isPrefixB_append {α : Type} [DecidableEq α] :
    ∀ (l k : List α), isPrefixB l (l ++ k) = true := by
  intro l k
  induction l with
  | nil => rfl
  | cons a as ih => simp [isPrefixB, ih]

lemma isPrefixB_refl {α : Type} [DecidableEq α] (l : List α) :
    isPrefixB l l = true := by
  have := isPrefixB_append l ([] : List α)
  simpa using this

lemma prefixChain_cons (x y : List Message) (chain : List (List Message))
    (hh : chain.head? = some y) (hp : isPrefixB x y = true)
    (hc : prefixChain chain = true) : prefixChain (x :: chain) = true := by
  cases chain with
  | nil => simp at hh
  | cons a rest =>
    simp only [List.head?_cons, Option.some.injEq] at hh
    subst hh
    simp [prefixChain, hp, hc]

lemma alternatingRoles_append_pair :
    ∀ rs : List Role, alternatingRoles rs = true → rs.getLast? = some Role.user →
      alternatingRoles (rs ++ [Role.assistant, Role.user]) = true := by
  intro rs
  induction rs with
  | nil => intro _ hlast; simp at hlast
  | cons a as ih =>
    intro halt hlast
    cases as with
    | nil =>
      simp only [List.getLast?_singleton, Option.some.injEq] at hlast
      subst hlast
      rfl
    | cons b bs =>
      simp only [alternatingRoles, Bool.and_eq_true] at halt
      have hlast' : (b :: bs).getLast? = some Role.user := by
        rw [List.getLast?_cons_cons] at hlast
        exact hlast
      have hrec := ih halt.2 hlast'
      simp only [List.cons_append] at hrec ⊢
      simp only [alternatingRoles, Bool.and_eq_true]
      exact ⟨halt.1, hrec⟩

lemma goodCallState_last_role (q : String) (ms : List Message)
    (hg : goodCallState q ms = true) :
    (ms.map Message.role).getLast? = some Role.user := by
  simp only [goodCallState, Bool.and_eq_true, Bool.or_eq_true, beq_iff_eq] at hg
  obtain ⟨⟨_, _⟩, hend⟩ := hg
  rw [List.getLast?_map]
  cases hend with
  | inl hinit => rw [hinit]; rfl
  | inr hres =>
    unfold endsWithToolResults at hres
    cases hcase : ms.getLast? with
    | none => rw [hcase] at hres; simp at hres
    | some m =>
      rw [hcase] at hres
      obtain ⟨r, c⟩ := m
      cases r with
      | assistant => simp at hres
      | user =>
        cases c with
        | str s => simp at hres
        | blocks bs => simp at hres
        | toolResults rs => rfl

lemma goodCallState_extend (q : String) (ms : List Message)
    (c : List ContentBlock) (rs : List ToolResultBlock)
    (hg : goodCallState q ms = true) (hrs : rs ≠ []) :
    goodCallState q (ms ++ [⟨Role.assistant, MessageContent.blocks c⟩,
      ⟨Role.user, MessageContent.toolResults rs⟩]) = true := by
  have hlast := goodCallState_last_role q ms hg
  have hne : ms ≠ [] := by
    intro hnil
    rw [hnil] at hg
    simp [goodCallState] at hg
  simp only [goodCallState, Bool.and_eq_true, Bool.or_eq_true, beq_iff_eq] at hg ⊢
  obtain ⟨⟨hhead, halt⟩, _⟩ := hg
  refine ⟨⟨?_, ?_⟩, Or.inr ?_⟩
  · cases ms with
    | nil => exact absurd rfl hne
    | cons m ms' => simpa using hhead
  · rw [List.map_append]
    exact alternatingRoles_append_pair (ms.map Message.role) halt hlast
  · unfold endsWithToolResults
    rw [show ms ++ [(⟨Role.assistant, MessageContent.blocks c⟩ : Message),
        ⟨Role.user, MessageContent.toolResults rs⟩] =
      (ms ++ [⟨Role.assistant, MessageContent.blocks c⟩]) ++
        [⟨Role.user, MessageContent.toolResults rs⟩] by simp, List.getLast?_concat]
    simpa using hrs

lemma execute_tool_round_messages_noexec (execB : ExecBehavior) (ec : Nat)
    (resp : Response) (ms : List Message)
    (hexec : (execute_tool_round execB ec resp ms).executed = false) :
    (execute_tool_round execB ec resp ms).messages =
      ms ++ [⟨Role.assistant, MessageContent.blocks resp.content⟩] := by
  simp only [execute_tool_round] at hexec ⊢
  cases hempty : (executeToolCalls execB ec resp.content).1.isEmpty with
  | true => rfl
  | false => rw [hempty] at hexec; simp at hexec

lemma execute_tool_round_messages_exec (execB : ExecBehavior) (ec : Nat)
    (resp : Response) (ms : List Message)
    (hexec : (execute_tool_round execB ec resp ms).executed = true) :
    (execute_tool_round execB ec resp ms).messages =
      ms ++ [⟨Role.assistant, MessageContent.blocks resp.content⟩,
        ⟨Role.user, MessageContent.toolResults
          (executeToolCalls execB ec resp.content).1⟩] ∧
    (executeToolCalls execB ec resp.content).1 ≠ [] := by
  simp only [execute_tool_round] at hexec ⊢
  cases hempty : (executeToolCalls execB ec resp.content).1.isEmpty with
  | true => rw [hempty] at hexec; simp at hexec
  | false =>
    constructor
    · simp
    · exact List.isEmpty_eq_false.mp hempty

lemma runLoop_state_inv (llm : LLMBehavior) (execB : ExecBehavior) (sys : String)
    (tools : Option (List Tool)) (hasTM : Bool) (q : String) :
    ∀ (fuel : Nat) (ms : List Message) (lc ec : Nat),
      goodCallState q ms = true →
      ((runLoop llm execB sys tools hasTM fuel ms lc ec).requests.all
        (fun r => goodCallState q r.messages) = true) ∧
      prefixChain
        ((runLoop llm execB sys tools hasTM fuel ms lc ec).requests.map
            Request.messages ++
          [(runLoop llm execB sys tools hasTM fuel ms lc ec).finalMessages]) = true ∧
      ((runLoop llm execB sys tools hasTM fuel ms lc ec).requests.map
        Request.messages).head? = some ms := by
  intro fuel
  induction fuel with
  | zero =>
    intro ms lc ec hg
    cases hres : llm lc (⟨ms, sys, none⟩ : Request) <;>
      simp [runLoop, hres, hg, prefixChain, isPrefixB_refl]
  | succ f ih =>
    intro ms lc ec hg
    cases hres : llm lc (loopRequest sys tools hasTM ms) with
    | error e =>
      rw [runLoop_succ_error llm execB sys tools hasTM f ms lc ec e hres]
      simp [loopRequest, hg, prefixChain, isPrefixB_refl]
    | ok resp =>
      by_cases hc : (resp.stop_reason == "tool_use" && hasTM) = true
      · by_cases hexec : (execute_tool_round execB ec resp ms).executed = true
        · obtain ⟨hmsg, hrs⟩ :=
            execute_tool_round_messages_exec execB ec resp ms hexec
          have hg' : goodCallState q (execute_tool_round execB ec resp ms).messages =
              true := by
            rw [hmsg]
            exact goodCallState_extend q ms resp.content _ hg hrs
          obtain ⟨iha, ihc, ihh⟩ := ih (execute_tool_round execB ec resp ms).messages
            (lc + 1) (execute_tool_round execB ec resp ms).execCount hg'
          rw [runLoop_succ_ok_exec llm execB sys tools hasTM f ms lc ec resp hres hc hexec]
          refine ⟨?_, ?_, ?_⟩
          · simp only [List.all_cons, Bool.and_eq_true]
            exact ⟨by simpa [loopRequest] using hg, iha⟩
          · simp only [List.map_cons, List.cons_append]
            have hhead : ((runLoop llm execB sys tools hasTM f
                (execute_tool_round execB ec resp ms).messages (lc + 1)
                (execute_tool_round execB ec resp ms).execCount).requests.map
                  Request.messages ++
                [(runLoop llm execB sys tools hasTM f
                  (execute_tool_round execB ec resp ms).messages (lc + 1)
                  (execute_tool_round execB ec resp ms).execCount).finalMessages]).head? =
                some (execute_tool_round execB ec resp ms).messages := by
              rw [List.head?_append, ihh]
              rfl
            have hpre : isPrefixB (loopRequest sys tools hasTM ms).messages
                (execute_tool_round execB ec resp ms).messages = true := by
              rw [hmsg]
              exact isPrefixB_append ms _
            exact prefixChain_cons _ _ _ hhead hpre ihc
          · simp [loopRequest]
        · have hexec' : (execute_tool_round execB ec resp ms).executed = false := by
            simpa using hexec
          rw [runLoop_succ_ok_noexec llm execB sys tools hasTM f ms lc ec resp hres hc hexec']
          refine ⟨?_, ?_, ?_⟩
          · simpa [loopRequest] using hg
          · rw [execute_tool_round_messages_noexec execB ec resp ms hexec']
            simp [loopRequest, prefixChain, isPrefixB_append]
          · simp [loopRequest]
      · have hc' : (resp.stop_reason == "tool_use" && hasTM) = false := by
          simpa using hc
        rw [runLoop_succ_ok_notool llm execB sys tools hasTM f ms lc ec resp hres hc']
        simp [loopRequest, hg, prefixChain, isPrefixB_refl]

/-- C4: in every run, every conversation state at which an LLM call is issued
starts with the user message holding the query verbatim, strictly alternates
user and assistant roles, and is either the initial single user message (zero
completed rounds) or ends with a user message holding non-empty tool results
(after at least one completed round); moreover the successive message states,
up to the final one, form a prefix chain — messages are only appended, never
reordered or truncated. -/
theorem run_message_invariant (llm : LLMBehavior) (execB : ExecBehavior)
    (q : String) (h : Option String) (tools : Option (List Tool)) (hasTM : Bool)
    (k : Nat) :
    ((generate_response llm execB q h tools hasTM k).requests.all
      (fun r => goodCallState q r.messages) = true) ∧
    prefixChain
      ((generate_response llm execB q h tools hasTM k).requests.map
          Request.messages ++
        [(generate_response llm execB q h tools hasTM k).finalMessages]) = true := by
  have hg : goodCallState q [⟨Role.user, MessageContent.str q⟩] = true := by
    simp [goodCallState, alternatingRoles]
  obtain ⟨ha, hc, _⟩ := runLoop_state_inv llm execB (build_system_content h) tools
    hasTM q k [⟨Role.user, MessageContent.str q⟩] 0 0 hg
  exact ⟨ha, hc⟩
